import Mathlib

/-!
Verification of the MoneyExchanger rate aggregation and conversion engine
(`src/app.js`). The engine is shallowly embedded: JavaScript numbers are
modelled as `JSNum` (a rational, NaN, or an infinity), the rate object held
in `this.rates` as an association list from currency-code strings to
rationals, and the asynchronous fetch pipeline as a pure function of the
per-source outcomes. All throws in `fetchRates` happen before any mutation
of `this.rates` / `this.lastUpdate` / the cookie, so the state transition is
modelled as: on error, the state triple is returned unchanged.
-/

namespace MoneyExchanger

/-- The fixed enumerated currency set of the app (base USD plus six quotes). -/
inductive Currency
  | USD | ARS | AED | CNY | CAD | PEN | BRL
  deriving DecidableEq, Repr

/-- The string code used as object key for each currency. -/
def Currency.code : Currency → String
  | .USD => "USD"
  | .ARS => "ARS"
  | .AED => "AED"
  | .CNY => "CNY"
  | .CAD => "CAD"
  | .PEN => "PEN"
  | .BRL => "BRL"

/-- Output of a source parser (`source.parser(data)`): `USD` is always the
number 1; each quote currency is a number or absent (`null`/`undefined`,
both modelled as `none`, exactly what the later
`rate !== null && rate !== undefined` filter tests). -/
structure SourceRates where
  usd : ℚ
  ars : Option ℚ
  aed : Option ℚ
  cny : Option ℚ
  cad : Option ℚ
  pen : Option ℚ
  brl : Option ℚ
  deriving DecidableEq, Repr

/-- Field projection of a parsed source result, by currency. -/
def SourceRates.rate : SourceRates → Currency → Option ℚ
  | r, .USD => some r.usd
  | r, .ARS => r.ars
  | r, .AED => r.aed
  | r, .CNY => r.cny
  | r, .CAD => r.cad
  | r, .PEN => r.pen
  | r, .BRL => r.brl

/-- Possible outcomes of the network part of `fetchFromSource` before the
catch block: a decoded and mapped rate object, or one of the failure modes
(non-ok HTTP status, timeout/abort of the fetch, a body that fails JSON
decoding, or the mapping function throwing). -/
inductive SourceOutcome
  | success (r : SourceRates)
  | httpError (status : ℕ)
  | timeoutAbort
  | malformedBody
  | mapException
  deriving DecidableEq, Repr

/-- `fetchFromSource(source)` (src/app.js lines 84-108): the whole body is
wrapped in try/catch; any thrown error is caught and `null` is returned, a
successful fetch returns the parsed rates. -/
def fetchFromSource : SourceOutcome → Option SourceRates
  | .success r => some r
  | .httpError _ => none
  | .timeoutAbort => none
  | .malformedBody => none
  | .mapException => none

/-- Errors thrown by `fetchRates()`. -/
inductive FetchError
  | allSourcesFailed
  | missingCurrencyRate (c : Currency)
  deriving DecidableEq, Repr

/-- `arr.reduce((sum, rate) => sum + rate, 0) / arr.length` -/
def listAvg (l : List ℚ) : ℚ :=
  l.sum / (l.length : ℚ)

/-- The pure computation of `fetchRates()` (src/app.js lines 110-192): filter
out failed sources, throw if none succeeded, then for each quote currency in
the fixed order ARS, AED, CNY, CAD, PEN, BRL take the non-absent values
across successful sources, throw if there are none, and record their average
in the `averagedRates` object (built in insertion order starting from
`{ USD: 1 }`). -/
def fetchRatesCompute (results : List (Option SourceRates)) :
    Except FetchError (List (String × ℚ)) :=
  let validResults := results.filterMap id
  if validResults.length = 0 then
    .error .allSourcesFailed
  else
    let arsRates := (validResults.map (fun r => r.ars)).filterMap id
    if arsRates.length = 0 then .error (.missingCurrencyRate .ARS) else
    let aedRates := (validResults.map (fun r => r.aed)).filterMap id
    if aedRates.length = 0 then .error (.missingCurrencyRate .AED) else
    let cnyRates := (validResults.map (fun r => r.cny)).filterMap id
    if cnyRates.length = 0 then .error (.missingCurrencyRate .CNY) else
    let cadRates := (validResults.map (fun r => r.cad)).filterMap id
    if cadRates.length = 0 then .error (.missingCurrencyRate .CAD) else
    let penRates := (validResults.map (fun r => r.pen)).filterMap id
    if penRates.length = 0 then .error (.missingCurrencyRate .PEN) else
    let brlRates := (validResults.map (fun r => r.brl)).filterMap id
    if brlRates.length = 0 then .error (.missingCurrencyRate .BRL) else
    .ok [("USD", 1), ("ARS", listAvg arsRates), ("AED", listAvg aedRates),
         ("CNY", listAvg cnyRates), ("CAD", listAvg cadRates),
         ("PEN", listAvg penRates), ("BRL", listAvg brlRates)]

/-- A JavaScript `Date`: either a valid instant (milliseconds since epoch,
modelled as a rational) or the Invalid Date produced e.g. by
`new Date(undefined)`. -/
inductive JSDate
  | invalid
  | time (t : ℚ)
  deriving DecidableEq, Repr

/-- `new Date(x)` applied to the stored `lastUpdate` field: a missing field
(`undefined`) yields an Invalid Date, a stored ISO timestamp yields its
instant. -/
def jsNewDate : Option ℚ → JSDate
  | none => .invalid
  | some t => .time t

/-- The mutable fields of `ExchangeRateService`: `this.rates` (initially
`null`) and `this.lastUpdate` (initially `null`). -/
structure ServiceState where
  rates : Option (List (String × ℚ))
  lastUpdate : Option JSDate
  deriving DecidableEq, Repr

/-- The object stored under the `exchangeRates` cookie, as recovered by
`JSON.parse`: each field may be missing (`undefined`). A fresh write from
`fetchRates` populates all four fields. -/
structure CachedSnapshot where
  rates : Option (List (String × ℚ))
  lastUpdate : Option ℚ
  sourcesUsed : Option ℕ
  totalSources : Option ℕ
  deriving DecidableEq, Repr

/-- The raw state of the `exchangeRates` cookie as seen by
`CookieManager.get`: absent, present but not parseable as JSON, or a parsed
snapshot object. -/
inductive CookieEntry
  | absent
  | malformed
  | value (s : CachedSnapshot)
  deriving DecidableEq, Repr

/-- `CookieManager.get(name)` (src/app.js lines 12-26): returns `null` when
the cookie is absent, `null` when `JSON.parse` throws (the catch branch
returns `null`), and the parsed value otherwise. -/
def cookieGet : CookieEntry → Option CachedSnapshot
  | .absent => none
  | .malformed => none
  | .value s => some s

/-- The object returned by a successful `fetchRates()` call. -/
structure FetchResult where
  rates : List (String × ℚ)
  lastUpdate : JSDate
  sourcesUsed : ℕ
  totalSources : ℕ
  deriving DecidableEq, Repr

/-- `fetchRates()` as a state transition (src/app.js lines 110-216): the
computation part runs first and all its throws precede every mutation, so on
error the service state and the cookie are returned untouched; on success
`this.rates` and `this.lastUpdate` are replaced, the snapshot (with all four
fields) is written to the cookie, and the result object is returned. -/
def fetchRatesRun (st : ServiceState) (cookie : CookieEntry)
    (results : List (Option SourceRates)) (now : ℚ) :
    ServiceState × CookieEntry × Except FetchError FetchResult :=
  match fetchRatesCompute results with
  | .error e => (st, cookie, .error e)
  | .ok averagedRates =>
      let sourcesUsed := (results.filterMap id).length
      let st' : ServiceState :=
        { rates := some averagedRates, lastUpdate := some (.time now) }
      let cookie' : CookieEntry :=
        .value { rates := some averagedRates, lastUpdate := some now,
                 sourcesUsed := some sourcesUsed,
                 totalSources := some results.length }
      (st', cookie',
       .ok { rates := averagedRates, lastUpdate := .time now,
             sourcesUsed := sourcesUsed, totalSources := results.length })

/-- The object returned by a successful `loadFromCache()` call (it carries
the extra `fromCache: true` field). -/
structure LoadResult where
  rates : List (String × ℚ)
  lastUpdate : JSDate
  sourcesUsed : Option ℕ
  totalSources : Option ℕ
  fromCache : Bool
  deriving DecidableEq, Repr

/-- `loadFromCache()` (src/app.js lines 218-234): read the cookie; if the
result is non-null and its `rates` field is present (`cached && cached.rates`),
install the cached rates and `new Date(cached.lastUpdate)` as the active
state and return the from-cache result; otherwise return `null` leaving the
state untouched. -/
def loadFromCache (st : ServiceState) (cookie : CookieEntry) :
    ServiceState × Option LoadResult :=
  match cookieGet cookie with
  | none => (st, none)
  | some cached =>
      match cached.rates with
      | none => (st, none)
      | some rt =>
          let lu := jsNewDate cached.lastUpdate
          ({ rates := some rt, lastUpdate := some lu },
           some { rates := rt, lastUpdate := lu,
                  sourcesUsed := cached.sourcesUsed,
                  totalSources := cached.totalSources, fromCache := true })

/-- A JavaScript number as far as the conversion arithmetic can observe it:
a finite value (modelled exactly as a rational), `NaN`, or an infinity.
`undefined` coerced into arithmetic becomes `NaN`. -/
inductive JSNum
  | num (q : ℚ)
  | nan
  | inf
  | neginf
  deriving DecidableEq, Repr

/-- Coercion of a property lookup into arithmetic: a present number stays a
number, an absent property (`undefined`) becomes `NaN`. -/
def jsOfLookup : Option ℚ → JSNum
  | some q => .num q
  | none => .nan

/-- JavaScript division on `JSNum` (IEEE-754 semantics up to the sign of
zero, which the engine never observes). -/
def jsDiv : JSNum → JSNum → JSNum
  | .nan, _ => .nan
  | _, .nan => .nan
  | .num x, .num y =>
      if y = 0 then (if x = 0 then .nan else if 0 < x then .inf else .neginf)
      else .num (x / y)
  | .num _, .inf => .num 0
  | .num _, .neginf => .num 0
  | .inf, .num y => if 0 ≤ y then .inf else .neginf
  | .neginf, .num y => if 0 ≤ y then .neginf else .inf
  | .inf, .inf => .nan
  | .inf, .neginf => .nan
  | .neginf, .inf => .nan
  | .neginf, .neginf => .nan

/-- JavaScript multiplication on `JSNum` (IEEE-754 semantics up to the sign
of zero). -/
def jsMul : JSNum → JSNum → JSNum
  | .nan, _ => .nan
  | _, .nan => .nan
  | .num x, .num y => .num (x * y)
  | .num x, .inf => if x = 0 then .nan else if 0 < x then .inf else .neginf
  | .num x, .neginf => if x = 0 then .nan else if 0 < x then .neginf else .inf
  | .inf, .num y => if y = 0 then .nan else if 0 < y then .inf else .neginf
  | .neginf, .num y => if y = 0 then .nan else if 0 < y then .neginf else .inf
  | .inf, .inf => .inf
  | .inf, .neginf => .neginf
  | .neginf, .inf => .neginf
  | .neginf, .neginf => .inf

/-- Error thrown by `convert` when `this.rates` is still `null`. -/
inductive ConvertError
  | ratesNotLoaded
  deriving DecidableEq, Repr

/-- `convert(amount, fromCurrency, toCurrency)` (src/app.js lines 236-250):
throw if rates are not loaded; return `amount` unchanged if the two codes
are equal; otherwise `amount / this.rates[fromCurrency] *
this.rates[toCurrency]`, where a lookup of a code absent from the rate
object yields `undefined`. -/
def convert (rates : Option (List (String × ℚ))) (amount : ℚ)
    (fromCurrency toCurrency : String) : Except ConvertError JSNum :=
  match rates with
  | none => .error .ratesNotLoaded
  | some r =>
      if fromCurrency = toCurrency then .ok (.num amount)
      else
        let amountInUSD := jsDiv (.num amount) (jsOfLookup (r.lookup fromCurrency))
        let convertedAmount := jsMul amountInUSD (jsOfLookup (r.lookup toCurrency))
        .ok convertedAmount

/-- The fixed order in which `fetchRates` checks and averages the quote
currencies: the order of the six averaging blocks in src/app.js lines
128-192. -/
def checkOrder : List Currency :=
  [.ARS, .AED, .CNY, .CAD, .PEN, .BRL]

/-- A currency was reported (with a non-absent value) by at least one
successful source. -/
def reportedBySome (valid : List SourceRates) (c : Currency) : Prop :=
  ∃ r ∈ valid, r.rate c ≠ none

/-! ## Helper lemmas -/

/-- Multiplying `NaN` on the right gives `NaN`, whatever the left operand. -/
theorem jsMul_nan_right (z : JSNum) : jsMul z .nan = .nan := by
  cases z <;> rfl

/-- Multiplying `NaN` on the left gives `NaN`, whatever the right operand. -/
theorem jsMul_nan_left (z : JSNum) : jsMul .nan z = .nan := by
  cases z <;> rfl

/-- The average of a list of rationals is invariant under permutation. -/
theorem listAvg_perm {l l' : List ℚ} (h : l.Perm l') : listAvg l = listAvg l' := by
  unfold listAvg
  rw [h.sum_eq, h.length_eq]

/-- The per-currency reported list is empty exactly when no successful
source reported that currency. -/
theorem reportedEmpty {valid : List SourceRates} {p : SourceRates → Option ℚ} :
    ((valid.map p).filterMap id).length = 0 ↔ ∀ r ∈ valid, p r = none := by
  rw [List.length_eq_zero, List.filterMap_map]
  simp [List.filterMap_eq_nil_iff]

/-- If some successful source reported the currency, the reported list is
nonempty. -/
theorem reported_length_ne_zero {valid : List SourceRates}
    {p : SourceRates → Option ℚ} (h : ∃ r ∈ valid, p r ≠ none) :
    ((valid.map p).filterMap id).length ≠ 0 := by
  rw [Ne, reportedEmpty]
  push_neg
  exact h

/-- Conversely, a nonempty reported list yields a reporting source. -/
theorem exists_reported {valid : List SourceRates}
    {p : SourceRates → Option ℚ}
    (h : ¬((valid.map p).filterMap id).length = 0) :
    ∃ r ∈ valid, p r ≠ none := by
  by_contra hc
  push_neg at hc
  exact h (reportedEmpty.mpr hc)

/-- A successful `fetchRatesCompute` returns exactly the table built from
`{ USD: 1 }` by appending, in order, the average of each quote currency
over the sources that reported it. -/
theorem fetchRatesCompute_ok_eq {results : List (Option SourceRates)}
    {t : List (String × ℚ)} (h : fetchRatesCompute results = .ok t) :
    t = [("USD", 1),
      ("ARS", listAvg (((results.filterMap id).map (fun r => r.ars)).filterMap id)),
      ("AED", listAvg (((results.filterMap id).map (fun r => r.aed)).filterMap id)),
      ("CNY", listAvg (((results.filterMap id).map (fun r => r.cny)).filterMap id)),
      ("CAD", listAvg (((results.filterMap id).map (fun r => r.cad)).filterMap id)),
      ("PEN", listAvg (((results.filterMap id).map (fun r => r.pen)).filterMap id)),
      ("BRL", listAvg (((results.filterMap id).map (fun r => r.brl)).filterMap id))] := by
  simp only [fetchRatesCompute] at h
  repeat' split at h
  all_goals simp_all

/-- When the computation throws, `fetchRates` leaves the service state and
the cookie untouched and surfaces the error. -/
theorem fetchRatesRun_of_error {results : List (Option SourceRates)}
    {e : FetchError} (st : ServiceState) (cookie : CookieEntry) (now : ℚ)
    (h : fetchRatesCompute results = .error e) :
    fetchRatesRun st cookie results now = (st, cookie, .error e) := by
  simp [fetchRatesRun, h]

/-! ## Theorems about `fetchRates` -/

/-- C1: when every registered source yields no result, `fetchRates` fails
with `AllSourcesFailedError` and the whole observable state — active rates,
`lastUpdate`, and the cookie cache — is exactly what it was before the
call; in particular no table is published and no snapshot is written. -/
theorem fetchRates_all_sources_failed (st : ServiceState) (cookie : CookieEntry)
    (results : List (Option SourceRates)) (now : ℚ)
    (hall : ∀ r ∈ results, r = none) :
    fetchRatesRun st cookie results now = (st, cookie, .error .allSourcesFailed) := by
  have hv : results.filterMap id = [] :=
    List.filterMap_eq_nil_iff.mpr (by simpa using hall)
  apply fetchRatesRun_of_error
  simp [fetchRatesCompute, hv]

/-- Witness for `fetchRates_all_sources_failed`: all three sources fail. -/
theorem fetchRates_all_sources_failed_witness :
    fetchRatesRun ⟨none, none⟩ .absent [none, none, none] 0 =
      (⟨none, none⟩, .absent, .error .allSourcesFailed) :=
  fetchRates_all_sources_failed ⟨none, none⟩ .absent [none, none, none] 0
    (by simp)

/-- C3: every successful `fetchRates` call publishes a complete table: the
returned `RateTable` has a value for each of the seven enumerated
currencies, the base currency USD maps to exactly 1, and the active rates
are replaced by exactly that table; on a failed call the state is left
exactly as before, so the active rates are never half-updated. -/
theorem fetchRates_publishes_complete_table (st : ServiceState)
    (cookie : CookieEntry) (results : List (Option SourceRates)) (now : ℚ) :
    (∀ st' cookie' res,
      fetchRatesRun st cookie results now = (st', cookie', .ok res) →
      res.rates.lookup "USD" = some 1 ∧
      (∀ c : Currency, ∃ v, res.rates.lookup c.code = some v) ∧
      st'.rates = some res.rates) ∧
    (∀ st' cookie' e,
      fetchRatesRun st cookie results now = (st', cookie', .error e) →
      st' = st ∧ cookie' = cookie) := by
  constructor
  · intro st' cookie' res h
    unfold fetchRatesRun at h
    split at h
    · simp at h
    · rename_i averagedRates heq
      have ht := fetchRatesCompute_ok_eq heq
      rw [Prod.mk.injEq, Prod.mk.injEq, Except.ok.injEq] at h
      obtain ⟨hst, _hck, hres⟩ := h
      subst hres
      subst hst
      subst ht
      refine ⟨?_, ?_, ?_⟩
      · simp [List.lookup]
      · intro c
        cases c <;> simp [Currency.code, List.lookup]
      · simp
  · intro st' cookie' e h
    unfold fetchRatesRun at h
    split at h
    · rw [Prod.mk.injEq, Prod.mk.injEq] at h
      exact ⟨h.1.symm, h.2.1.symm⟩
    · simp at h

/-- Witness for `fetchRates_publishes_complete_table`: a concrete run with
one successful source succeeds and publishes a complete table. -/
theorem fetchRates_publishes_complete_table_witness :
    ∃ st' cookie' res,
      fetchRatesRun ⟨none, none⟩ .absent
        [some ⟨1, some 2, some 3, some 4, some 5, some 6, some 7⟩, none] 0 =
        (st', cookie', .ok res) ∧
      res.rates.lookup "USD" = some 1 ∧
      (∀ c : Currency, ∃ v, res.rates.lookup c.code = some v) ∧
      st'.rates = some res.rates := by
  refine ⟨_, _, _, rfl, ?_⟩
  exact (fetchRates_publishes_complete_table ⟨none, none⟩ .absent
    [some ⟨1, some 2, some 3, some 4, some 5, some 6, some 7⟩, none] 0).1 _ _ _ rfl

/-- C2 (amended): if at least one source yields a result but some
enumerated non-base currency is reported by no successful source, then
`fetchRates` fails with `MissingCurrencyRateError` naming the first
unreported currency in the fixed order ARS, AED, CNY, CAD, PEN, BRL —
pinned down here by exhibiting the split `checkOrder = pre ++ c' :: post`
in which every currency of the prefix `pre` was reported and `c'` was not —
and the active rates, `lastUpdate` and the cookie are unchanged, even when
every other currency was fully covered. -/
theorem fetchRates_missing_currency (st : ServiceState) (cookie : CookieEntry)
    (results : List (Option SourceRates)) (now : ℚ) (c : Currency)
    (hc : c ≠ .USD)
    (hvalid : (results.filterMap id).length ≠ 0)
    (hmiss : ∀ r ∈ results.filterMap id, r.rate c = none) :
    ∃ c' pre post,
      checkOrder = pre ++ c' :: post ∧
      (∀ d ∈ pre, reportedBySome (results.filterMap id) d) ∧
      (∀ r ∈ results.filterMap id, r.rate c' = none) ∧
      fetchRatesRun st cookie results now =
        (st, cookie, .error (.missingCurrencyRate c')) := by
  have rep : ∀ (p : SourceRates → Option ℚ) (d : Currency),
      (∀ r : SourceRates, r.rate d = p r) →
      ¬(((results.filterMap id).map p).filterMap id).length = 0 →
      reportedBySome (results.filterMap id) d := by
    intro p d hpd h
    obtain ⟨r, hr, hne⟩ := exists_reported h
    exact ⟨r, hr, by rw [hpd]; exact hne⟩
  by_cases h1 : (((results.filterMap id).map (fun r => r.ars)).filterMap id).length = 0
  · refine ⟨.ARS, [], [.AED, .CNY, .CAD, .PEN, .BRL], rfl, by simp, ?_,
      fetchRatesRun_of_error st cookie now ?_⟩
    · intro r hr
      simpa [SourceRates.rate] using reportedEmpty.mp h1 r hr
    · simp only [fetchRatesCompute]
      rw [if_neg hvalid, if_pos h1]
  by_cases h2 : (((results.filterMap id).map (fun r => r.aed)).filterMap id).length = 0
  · refine ⟨.AED, [.ARS], [.CNY, .CAD, .PEN, .BRL], rfl, ?_, ?_,
      fetchRatesRun_of_error st cookie now ?_⟩
    · intro d hd
      fin_cases hd
      exact rep _ .ARS (fun r => rfl) h1
    · intro r hr
      simpa [SourceRates.rate] using reportedEmpty.mp h2 r hr
    · simp only [fetchRatesCompute]
      rw [if_neg hvalid, if_neg h1, if_pos h2]
  by_cases h3 : (((results.filterMap id).map (fun r => r.cny)).filterMap id).length = 0
  · refine ⟨.CNY, [.ARS, .AED], [.CAD, .PEN, .BRL], rfl, ?_, ?_,
      fetchRatesRun_of_error st cookie now ?_⟩
    · intro d hd
      fin_cases hd
      · exact rep _ .ARS (fun r => rfl) h1
      · exact rep _ .AED (fun r => rfl) h2
    · intro r hr
      simpa [SourceRates.rate] using reportedEmpty.mp h3 r hr
    · simp only [fetchRatesCompute]
      rw [if_neg hvalid, if_neg h1, if_neg h2, if_pos h3]
  by_cases h4 : (((results.filterMap id).map (fun r => r.cad)).filterMap id).length = 0
  · refine ⟨.CAD, [.ARS, .AED, .CNY], [.PEN, .BRL], rfl, ?_, ?_,
      fetchRatesRun_of_error st cookie now ?_⟩
    · intro d hd
      fin_cases hd
      · exact rep _ .ARS (fun r => rfl) h1
      · exact rep _ .AED (fun r => rfl) h2
      · exact rep _ .CNY (fun r => rfl) h3
    · intro r hr
      simpa [SourceRates.rate] using reportedEmpty.mp h4 r hr
    · simp only [fetchRatesCompute]
      rw [if_neg hvalid, if_neg h1, if_neg h2, if_neg h3, if_pos h4]
  by_cases h5 : (((results.filterMap id).map (fun r => r.pen)).filterMap id).length = 0
  · refine ⟨.PEN, [.ARS, .AED, .CNY, .CAD], [.BRL], rfl, ?_, ?_,
      fetchRatesRun_of_error st cookie now ?_⟩
    · intro d hd
      fin_cases hd
      · exact rep _ .ARS (fun r => rfl) h1
      · exact rep _ .AED (fun r => rfl) h2
      · exact rep _ .CNY (fun r => rfl) h3
      · exact rep _ .CAD (fun r => rfl) h4
    · intro r hr
      simpa [SourceRates.rate] using reportedEmpty.mp h5 r hr
    · simp only [fetchRatesCompute]
      rw [if_neg hvalid, if_neg h1, if_neg h2, if_neg h3, if_neg h4, if_pos h5]
  by_cases h6 : (((results.filterMap id).map (fun r => r.brl)).filterMap id).length = 0
  · refine ⟨.BRL, [.ARS, .AED, .CNY, .CAD, .PEN], [], rfl, ?_, ?_,
      fetchRatesRun_of_error st cookie now ?_⟩
    · intro d hd
      fin_cases hd
      · exact rep _ .ARS (fun r => rfl) h1
      · exact rep _ .AED (fun r => rfl) h2
      · exact rep _ .CNY (fun r => rfl) h3
      · exact rep _ .CAD (fun r => rfl) h4
      · exact rep _ .PEN (fun r => rfl) h5
    · intro r hr
      simpa [SourceRates.rate] using reportedEmpty.mp h6 r hr
    · simp only [fetchRatesCompute]
      rw [if_neg hvalid, if_neg h1, if_neg h2, if_neg h3, if_neg h4, if_neg h5,
        if_pos h6]
  exfalso
  cases c with
  | USD => exact hc rfl
  | ARS =>
      exact h1 (reportedEmpty.mpr fun r hr => by
        simpa [SourceRates.rate] using hmiss r hr)
  | AED =>
      exact h2 (reportedEmpty.mpr fun r hr => by
        simpa [SourceRates.rate] using hmiss r hr)
  | CNY =>
      exact h3 (reportedEmpty.mpr fun r hr => by
        simpa [SourceRates.rate] using hmiss r hr)
  | CAD =>
      exact h4 (reportedEmpty.mpr fun r hr => by
        simpa [SourceRates.rate] using hmiss r hr)
  | PEN =>
      exact h5 (reportedEmpty.mpr fun r hr => by
        simpa [SourceRates.rate] using hmiss r hr)
  | BRL =>
      exact h6 (reportedEmpty.mpr fun r hr => by
        simpa [SourceRates.rate] using hmiss r hr)

/-- Witness for `fetchRates_missing_currency`: one source succeeds but
reports no ARS value, so the run fails naming the first unreported currency
of the check order and changes nothing. -/
theorem fetchRates_missing_currency_witness :
    ∃ c' pre post,
      checkOrder = pre ++ c' :: post ∧
      (∀ d ∈ pre, reportedBySome
        (([some ⟨1, none, some 3, some 4, some 5, some 6, some 7⟩] :
          List (Option SourceRates)).filterMap id) d) ∧
      (∀ r ∈ ([some ⟨1, none, some 3, some 4, some 5, some 6, some 7⟩] :
        List (Option SourceRates)).filterMap id, r.rate c' = none) ∧
      fetchRatesRun ⟨none, none⟩ .absent
          [some ⟨1, none, some 3, some 4, some 5, some 6, some 7⟩] 0 =
        (⟨none, none⟩, .absent, .error (.missingCurrencyRate c')) := by
  apply fetchRates_missing_currency ⟨none, none⟩ .absent _ 0 .ARS
  · decide
  · decide
  · intro r hr
    simp at hr
    subst hr
    rfl

/-- C2 counterexample: with one successful source missing both ARS and AED,
the AED instance of the claim fails: AED is reported by zero successful
sources, yet the error thrown names ARS, not AED. -/
theorem fetchRates_missing_currency_counterexample :
    (∀ r ∈ ([some ⟨1, none, none, some 4, some 5, some 6, some 7⟩] :
        List (Option SourceRates)).filterMap id, r.rate .AED = none) ∧
    fetchRatesRun ⟨none, none⟩ .absent
        [some ⟨1, none, none, some 4, some 5, some 6, some 7⟩] 0 =
      (⟨none, none⟩, .absent, .error (.missingCurrencyRate .ARS)) ∧
    FetchError.missingCurrencyRate .ARS ≠ .missingCurrencyRate .AED := by
  refine ⟨?_, rfl, by decide⟩
  intro r hr
  simp at hr
  subst hr
  rfl

/-- C4: for every non-base currency, the aggregated rate in a successful
table equals the arithmetic mean — sum divided by size — of the multiset
of values the successful sources reported for it, and the whole aggregation
outcome is invariant under permuting the list of sources. -/
theorem fetchRates_average_mean_perm (results results' : List (Option SourceRates))
    (t : List (String × ℚ)) (c : Currency) (V : List ℚ)
    (hc : c ≠ .USD)
    (h : fetchRatesCompute results = .ok t)
    (hV : V = ((results.filterMap id).map (fun r => r.rate c)).filterMap id)
    (hperm : results.Perm results') :
    t.lookup c.code = some (V.sum / (V.length : ℚ)) ∧
    fetchRatesCompute results' = fetchRatesCompute results := by
  constructor
  · subst hV
    have ht := fetchRatesCompute_ok_eq h
    subst ht
    cases c with
    | USD => exact absurd rfl hc
    | ARS => simp [Currency.code, List.lookup, SourceRates.rate, listAvg]
    | AED => simp [Currency.code, List.lookup, SourceRates.rate, listAvg]
    | CNY => simp [Currency.code, List.lookup, SourceRates.rate, listAvg]
    | CAD => simp [Currency.code, List.lookup, SourceRates.rate, listAvg]
    | PEN => simp [Currency.code, List.lookup, SourceRates.rate, listAvg]
    | BRL => simp [Currency.code, List.lookup, SourceRates.rate, listAvg]
  · have hv := hperm.filterMap id
    have hars := (hv.map (fun r => r.ars)).filterMap id
    have haed := (hv.map (fun r => r.aed)).filterMap id
    have hcny := (hv.map (fun r => r.cny)).filterMap id
    have hcad := (hv.map (fun r => r.cad)).filterMap id
    have hpen := (hv.map (fun r => r.pen)).filterMap id
    have hbrl := (hv.map (fun r => r.brl)).filterMap id
    simp only [fetchRatesCompute]
    rw [← hv.length_eq, ← hars.length_eq, ← listAvg_perm hars,
      ← haed.length_eq, ← listAvg_perm haed, ← hcny.length_eq,
      ← listAvg_perm hcny, ← hcad.length_eq, ← listAvg_perm hcad,
      ← hpen.length_eq, ← listAvg_perm hpen, ← hbrl.length_eq,
      ← listAvg_perm hbrl]

/-- Witness for `fetchRates_average_mean_perm`: the spec scenario ARS
reported as 1000 and 1020 aggregates to their mean, and swapping the two
sources changes nothing. -/
theorem fetchRates_average_mean_perm_witness :
    ∃ t, fetchRatesCompute
        [some ⟨1, some 1000, some 3, some 4, some 5, some 6, some 7⟩,
         some ⟨1, some 1020, some 3, some 4, some 5, some 6, some 7⟩] = .ok t ∧
      t.lookup "ARS" =
        some (([1000, 1020] : List ℚ).sum / ((([1000, 1020] : List ℚ).length : ℚ))) ∧
      fetchRatesCompute
          [some ⟨1, some 1020, some 3, some 4, some 5, some 6, some 7⟩,
           some ⟨1, some 1000, some 3, some 4, some 5, some 6, some 7⟩] =
        fetchRatesCompute
          [some ⟨1, some 1000, some 3, some 4, some 5, some 6, some 7⟩,
           some ⟨1, some 1020, some 3, some 4, some 5, some 6, some 7⟩] := by
  refine ⟨_, rfl, ?_, ?_⟩
  · exact (fetchRates_average_mean_perm
      [some ⟨1, some 1000, some 3, some 4, some 5, some 6, some 7⟩,
       some ⟨1, some 1020, some 3, some 4, some 5, some 6, some 7⟩]
      [some ⟨1, some 1020, some 3, some 4, some 5, some 6, some 7⟩,
       some ⟨1, some 1000, some 3, some 4, some 5, some 6, some 7⟩]
      _ .ARS [1000, 1020] (by decide) rfl rfl (List.Perm.swap _ _ _)).1
  · exact (fetchRates_average_mean_perm
      [some ⟨1, some 1000, some 3, some 4, some 5, some 6, some 7⟩,
       some ⟨1, some 1020, some 3, some 4, some 5, some 6, some 7⟩]
      [some ⟨1, some 1020, some 3, some 4, some 5, some 6, some 7⟩,
       some ⟨1, some 1000, some 3, some 4, some 5, some 6, some 7⟩]
      _ .ARS [1000, 1020] (by decide) rfl rfl (List.Perm.swap _ _ _)).2

/-- C8: every failing fetch outcome — non-success HTTP status,
timeout/abort, malformed body, or mapping exception — yields no result
for that source rather than an error, and such failures never abort the
aggregation: whenever every enumerated quote currency is covered by at
least one successful source, the aggregation over all settled outcomes
succeeds. -/
theorem sourceFailure_never_aborts
    (o : SourceOutcome) (ho : ∀ r, o ≠ .success r)
    (outcomes : List SourceOutcome)
    (hcover : ∀ c : Currency, c ≠ .USD →
      ∃ r ∈ (outcomes.map fetchFromSource).filterMap id, r.rate c ≠ none) :
    fetchFromSource o = none ∧
    ∃ t, fetchRatesCompute (outcomes.map fetchFromSource) = .ok t := by
  constructor
  · cases o with
    | success r => exact ((ho r) rfl).elim
    | httpError s => rfl
    | timeoutAbort => rfl
    | malformedBody => rfl
    | mapException => rfl
  · have hvalidlen : ((outcomes.map fetchFromSource).filterMap id).length ≠ 0 := by
      obtain ⟨r, hr, _⟩ := hcover .ARS (by decide)
      intro h0
      rw [List.length_eq_zero] at h0
      rw [h0] at hr
      exact absurd hr (List.not_mem_nil r)
    have hARS := reported_length_ne_zero (p := fun r => r.ars) (by
      obtain ⟨r, hr, hne⟩ := hcover .ARS (by decide)
      exact ⟨r, hr, by simpa [SourceRates.rate] using hne⟩)
    have hAED := reported_length_ne_zero (p := fun r => r.aed) (by
      obtain ⟨r, hr, hne⟩ := hcover .AED (by decide)
      exact ⟨r, hr, by simpa [SourceRates.rate] using hne⟩)
    have hCNY := reported_length_ne_zero (p := fun r => r.cny) (by
      obtain ⟨r, hr, hne⟩ := hcover .CNY (by decide)
      exact ⟨r, hr, by simpa [SourceRates.rate] using hne⟩)
    have hCAD := reported_length_ne_zero (p := fun r => r.cad) (by
      obtain ⟨r, hr, hne⟩ := hcover .CAD (by decide)
      exact ⟨r, hr, by simpa [SourceRates.rate] using hne⟩)
    have hPEN := reported_length_ne_zero (p := fun r => r.pen) (by
      obtain ⟨r, hr, hne⟩ := hcover .PEN (by decide)
      exact ⟨r, hr, by simpa [SourceRates.rate] using hne⟩)
    have hBRL := reported_length_ne_zero (p := fun r => r.brl) (by
      obtain ⟨r, hr, hne⟩ := hcover .BRL (by decide)
      exact ⟨r, hr, by simpa [SourceRates.rate] using hne⟩)
    cases hok : fetchRatesCompute (outcomes.map fetchFromSource) with
    | error e =>
        exfalso
        simp only [fetchRatesCompute] at hok
        rw [if_neg hvalidlen, if_neg hARS, if_neg hAED, if_neg hCNY,
          if_neg hCAD, if_neg hPEN, if_neg hBRL] at hok
        simp at hok
    | ok t => exact ⟨t, rfl⟩

/-- Witness for `sourceFailure_never_aborts`: one source times out, one
succeeds with every currency; the aggregation still succeeds. -/
theorem sourceFailure_never_aborts_witness :
    fetchFromSource .timeoutAbort = none ∧
    ∃ t, fetchRatesCompute
        ([SourceOutcome.timeoutAbort,
          .success ⟨1, some 2, some 3, some 4, some 5, some 6, some 7⟩].map
          fetchFromSource) = .ok t := by
  apply sourceFailure_never_aborts
  · intro r h
    exact SourceOutcome.noConfusion h
  · intro c hc
    cases c with
    | USD => exact absurd rfl hc
    | ARS => decide
    | AED => decide
    | CNY => decide
    | CAD => decide
    | PEN => decide
    | BRL => decide

/-- C9 (amended): `loadFromCache` returns a from-cache result exactly when
the cookie holds a parseable snapshot whose `rates` field is present; the
timestamp is not required — when missing, the loaded `lastUpdate` is an
invalid date. In every other case — cookie absent, unparseable, or a
snapshot without rates — it returns the absent result with the state
untouched, never raising an error (the malformed-parse case is recovered
inside `CookieManager.get`). -/
theorem loadFromCache_spec (st : ServiceState) (e : CookieEntry) :
    ((loadFromCache st e).2 ≠ none ↔ ∃ s rt, e = .value s ∧ s.rates = some rt) ∧
    (∀ res, (loadFromCache st e).2 = some res → res.fromCache = true) ∧
    ((loadFromCache st e).2 = none → loadFromCache st e = (st, none)) := by
  cases e with
  | absent => simp [loadFromCache, cookieGet]
  | malformed => simp [loadFromCache, cookieGet]
  | value s =>
      cases hs : s.rates with
      | none => simp [loadFromCache, cookieGet, hs]
      | some rt =>
          refine ⟨?_, ?_, ?_⟩
          · constructor
            · intro _
              exact ⟨s, rt, rfl, hs⟩
            · intro _
              simp [loadFromCache, cookieGet, hs]
          · intro res hres
            simp [loadFromCache, cookieGet, hs] at hres
            rw [← hres]
          · intro h0
            simp [loadFromCache, cookieGet, hs] at h0

/-- Witness for `loadFromCache_spec`: an unparseable cookie is treated as
cache-absent and the state is untouched. -/
theorem loadFromCache_spec_witness :
    loadFromCache ⟨none, none⟩ .malformed = (⟨none, none⟩, none) :=
  (loadFromCache_spec ⟨none, none⟩ .malformed).2.2 rfl

/-- C9 counterexample: a parseable snapshot with rates but with no
timestamp field is still returned as a from-cache result (with an invalid
date), not treated as absent as the claim requires. -/
theorem loadFromCache_counterexample :
    (loadFromCache ⟨none, none⟩
        (.value ⟨some [("USD", 1)], none, none, none⟩)).2 =
      some ⟨[("USD", 1)], .invalid, none, none, true⟩ ∧
    (⟨some [("USD", 1)], none, none, none⟩ : CachedSnapshot).lastUpdate = none :=
  ⟨rfl, rfl⟩

/-! ## Theorems about `convert` -/

/-- C5: for every currency code `c` and every amount `x ≥ 0`, with any
loaded rate table, `convert x c c` returns exactly `x` (identity
short-circuit, no arithmetic performed). -/
theorem convert_self_identity (r : List (String × ℚ)) (x : ℚ) (c : String)
    (_hx : 0 ≤ x) : convert (some r) x c c = .ok (.num x) := by
  simp [convert]

/-- Witness for `convert_self_identity` at `x = 100`, `c = USD`. -/
theorem convert_self_identity_witness :
    (0 : ℚ) ≤ 100 ∧
      convert (some [("USD", 1), ("ARS", 1010)]) 100 "USD" "USD" = .ok (.num 100) :=
  ⟨by norm_num, convert_self_identity [("USD", 1), ("ARS", 1010)] 100 "USD" (by norm_num)⟩

/-- C6: `convert` throws `RatesNotLoadedError` exactly when the active rates
are absent: with `rates = null` it errors, and with any loaded table it
returns a value; moreover for `fromCurrency ≠ toCurrency` with both codes
present in the table (and the source rate positive, per the RateTable
invariant), the value is exactly `amount / rate[from] * rate[to]`. Purity
and determinism hold by construction: `convert` is a function of the table
and its arguments alone. -/
theorem convert_spec (x : ℚ) (f t : String) (r : List (String × ℚ)) :
    convert none x f t = .error .ratesNotLoaded ∧
    (∃ v, convert (some r) x f t = .ok v) ∧
    (f ≠ t → ∀ rf rt : ℚ, r.lookup f = some rf → 0 < rf → r.lookup t = some rt →
      convert (some r) x f t = .ok (.num (x / rf * rt))) := by
  refine ⟨rfl, ?_, ?_⟩
  · by_cases h : f = t
    · exact ⟨.num x, by simp [convert, h]⟩
    · exact ⟨jsMul (jsDiv (.num x) (jsOfLookup (r.lookup f)))
        (jsOfLookup (r.lookup t)), by simp [convert, h]⟩
  · intro hne rf rt hf hrf ht
    simp [convert, hne, hf, ht, jsOfLookup, jsDiv, jsMul, ne_of_gt hrf]

/-- Witness for `convert_spec`: the spec scenario
`convert(100, USD, ARS)` with table `[USD 1, ARS 1010]` gives `101000`. -/
theorem convert_spec_witness :
    convert (some [("USD", 1), ("ARS", 1010)]) 100 "USD" "ARS" =
      .ok (.num (100 / 1 * 1010)) :=
  (convert_spec 100 "USD" "ARS" [("USD", 1), ("ARS", 1010)]).2.2
    (by decide) 1 1010 rfl (by norm_num) rfl

/-- C7: the round trip `convert(convert(x, A, B), B, A)` recovers `x`
exactly under the exact rational arithmetic of the model, for any table
where the two rates involved are positive. -/
theorem convert_round_trip (r : List (String × ℚ)) (x rA rB : ℚ) (a b : String)
    (hA : r.lookup a = some rA) (hApos : 0 < rA)
    (hB : r.lookup b = some rB) (hBpos : 0 < rB) (_hx : 0 ≤ x) :
    ∃ y : ℚ, convert (some r) x a b = .ok (.num y) ∧
      convert (some r) y b a = .ok (.num x) := by
  have hA0 : rA ≠ 0 := ne_of_gt hApos
  have hB0 : rB ≠ 0 := ne_of_gt hBpos
  by_cases hab : a = b
  · subst hab
    exact ⟨x, by simp [convert], by simp [convert]⟩
  · refine ⟨x / rA * rB, ?_, ?_⟩
    · simp [convert, hab, hA, hB, jsOfLookup, jsDiv, jsMul, hA0]
    · have hba : ¬b = a := fun h => hab h.symm
      have h1 : x / rA * rB / rB * rA = x := by
        field_simp
        ring
      simp only [convert, jsOfLookup, hA, hB, if_neg hba]
      simp only [jsDiv, jsMul, if_neg hB0]
      rw [h1]

/-- Witness for `convert_round_trip`: table `[USD 1, ARS 1010]`,
`x = 100`, `A = USD`, `B = ARS`. -/
theorem convert_round_trip_witness :
    ∃ y : ℚ, convert (some [("USD", 1), ("ARS", 1010)]) 100 "USD" "ARS" = .ok (.num y) ∧
      convert (some [("USD", 1), ("ARS", 1010)]) y "ARS" "USD" = .ok (.num 100) :=
  convert_round_trip [("USD", 1), ("ARS", 1010)] 100 1 1010 "USD" "ARS"
    rfl (by norm_num) rfl (by norm_num) (by norm_num)

/-- C10: with rates loaded and `fromCurrency ≠ toCurrency`, a currency code
absent from the rate table (in either position) does not make `convert`
throw: the `undefined` lookup coerces to `NaN` and the result is
`ok NaN`. -/
theorem convert_missing_currency_nan (r : List (String × ℚ)) (x : ℚ)
    (f t : String) (hne : f ≠ t)
    (hmiss : r.lookup f = none ∨ r.lookup t = none) :
    convert (some r) x f t = .ok .nan := by
  rcases hmiss with h | h
  · simp [convert, hne, h, jsOfLookup, jsDiv, jsMul_nan_left]
  · simp [convert, hne, h, jsOfLookup, jsMul_nan_right]

/-- Witness for `convert_missing_currency_nan`: converting to the code
`XYZ`, absent from the table, yields `NaN`. -/
theorem convert_missing_currency_nan_witness :
    convert (some [("USD", 1), ("ARS", 1010)]) 100 "USD" "XYZ" = .ok .nan :=
  convert_missing_currency_nan [("USD", 1), ("ARS", 1010)] 100 "USD" "XYZ"
    (by decide) (Or.inr rfl)

end MoneyExchanger
